import Mathlib

/-!
# A verification development of the `sql-validator` package

Shallow embedding, in Lean 4, of `src/packages/sql-validator/src/lib.rs`:
the completion-cache builder, the SQL context detector, the completion
dispatcher, and the validate/format facade.  External collaborators (the
SQL tokenizer, the SQL statement parser, the pretty-printer and JSON
encoding/decoding) are modelled at their boundary: the tokenizer and the
parser appear as explicit parameters carrying their result, strings are
`String` or `List Char`, and the process-wide `OnceLock` cache is explicit
state of type `Option CompletionCache` threaded through the entry points.

Rust's `&s[i..]`, which panics when `i` is out of bounds, is modelled by a
slice operation returning `Option`; a `none` propagated to the result of
`detect_context` marks the panic.
-/

set_option maxRecDepth 4000

namespace SqlValidator

/-! ## Character and string helpers -/

/-- ASCII lowercasing of one character, as Rust's `to_ascii_lowercase`. -/
def toLowerAscii (c : Char) : Char :=
  if 'A' ≤ c && c ≤ 'Z' then Char.ofNat (c.toNat + 32) else c

/-- Rust's `str::eq_ignore_ascii_case`. -/
def eqIgnoreAsciiCase (a b : String) : Bool :=
  a.data.map toLowerAscii == b.data.map toLowerAscii

/-- Whitespace predicate used for Rust's `trim`/`trim_start`
(`char::is_whitespace`, restricted to the ASCII range where it agrees with
`Char.isWhitespace`). -/
def isWsChar (c : Char) : Bool := c.isWhitespace

/-- Rust's `str::trim` on a character list. -/
def trimChars (l : List Char) : List Char :=
  ((l.dropWhile isWsChar).reverse.dropWhile isWsChar).reverse

/-- Rust's `str::trim` on a `String`. -/
def trimStr (s : String) : String := String.mk (trimChars s.data)

/-- Rust's `char::is_numeric`, restricted to the ASCII range where it agrees
with `Char.isDigit`. -/
def isNumericChar (c : Char) : Bool := c.isDigit

/-- Value of a digit string, most significant first. -/
def digitsToNat (l : List Char) : Nat :=
  l.foldl (fun acc c => 10 * acc + (c.toNat - '0'.toNat)) 0

/-- Rust's `str::parse::<u32>()`: an optional leading `+`, then one or more
ASCII digits, value below `2 ^ 32`. -/
def parseU32 (l : List Char) : Option Nat :=
  let body := match l with
    | '+' :: t => t
    | _ => l
  if body ≠ [] && body.all Char.isDigit then
    let v := digitsToNat body
    if v < 2 ^ 32 then some v else none
  else none

/-- `needle` begins `hay`. -/
def isPrefixList : List Char → List Char → Bool
  | [], _ => true
  | _ :: _, [] => false
  | n :: ns, h :: hs => n == h && isPrefixList ns hs

/-- Rust's `str::find(pattern)` for a string pattern: index of the first
occurrence of `needle` in `hay`. -/
def findSub (hay needle : List Char) : Option Nat :=
  if isPrefixList needle hay then some 0
  else match hay with
    | [] => none
    | _ :: t => (findSub t needle).map (· + 1)

/-- Rust's `str::find(predicate)`: index of the first character satisfying
`p`. -/
def findIdxOpt (p : Char → Bool) : List Char → Option Nat
  | [] => none
  | c :: t => if p c then some 0 else (findIdxOpt p t).map (· + 1)

/-- Rust's `[String]::join(sep)` (on nonempty input; `join` of `[]` is
`""`). -/
def joinStr (sep : String) : List String → String
  | [] => ""
  | [x] => x
  | x :: y :: t => x ++ sep ++ joinStr sep (y :: t)

/-- Rust's `[&str]::join(sep)` on character lists. -/
def joinChars (sep : List Char) : List (List Char) → List Char
  | [] => []
  | [x] => x
  | x :: y :: t => x ++ sep ++ joinChars sep (y :: t)

/-- `needle` occurs somewhere inside `hay`. -/
def HasSubstr (needle hay : List Char) : Prop :=
  ∃ pre post, hay = pre ++ needle ++ post

/-! ## Catalog model (`FunctionInfo` … `ClickHouseData`, lib.rs 69–145) -/

/-- `FunctionInfo` (lib.rs 71).  The Rust field `syntax` is spelled
`syntaxStr` because `syntax` is a Lean keyword. -/
structure FunctionInfo where
  name : String
  is_aggregate : Bool
  alias_to : Option String
  syntaxStr : String
  description : String
  arguments : String
  returned_value : String
  categories : String
deriving DecidableEq, Repr

structure DataTypeInfo where
  name : String
  alias_to : Option String
deriving DecidableEq, Repr

structure TableEngineInfo where
  name : String
deriving DecidableEq, Repr

structure FormatInfo where
  name : String
  is_input : Bool
  is_output : Bool
deriving DecidableEq, Repr

structure TableFunctionInfo where
  name : String
  description : String
deriving DecidableEq, Repr

structure SettingInfo where
  name : String
  setting_type : String
  description : String
deriving DecidableEq, Repr

structure ClickHouseData where
  functions : List FunctionInfo
  keywords : List String
  data_types : List DataTypeInfo
  table_engines : List TableEngineInfo
  formats : List FormatInfo
  table_functions : List TableFunctionInfo
  aggregate_combinators : List String
  settings : List SettingInfo
  merge_tree_settings : List SettingInfo
deriving DecidableEq, Repr

/-! ## Completion item model (lib.rs 29–66) -/

inductive CompletionItemKind where
  | Function
  | Keyword
  | DataType
  | TableEngine
  | Format
  | Setting
  | AggregateFunction
  | TableFunction
deriving DecidableEq, Repr

structure Documentation where
  kind : String
  value : String
deriving DecidableEq, Repr

structure CompletionItem where
  label : String
  kind : CompletionItemKind
  detail : Option String
  documentation : Option Documentation
  has_params : Bool
  sort_text : Option String
deriving DecidableEq, Repr

/-- The sort priority bands (lib.rs 167–174). -/
def SORT_PRIORITY_KEYWORD : String := "0_"

def SORT_PRIORITY_FUNCTION : String := "1_"

def SORT_PRIORITY_DATA_TYPE : String := "2_"

def SORT_PRIORITY_TABLE_ENGINE : String := "3_"

def SORT_PRIORITY_FORMAT : String := "4_"

def SORT_PRIORITY_TABLE_FUNCTION : String := "5_"

def SORT_PRIORITY_SETTING : String := "6_"

def SORT_PRIORITY_ALIAS : String := "9_"

/-! ## Cache builder (lib.rs 176–451) -/

/-- `build_function_documentation` (lib.rs 234–261). -/
def build_function_documentation (func : FunctionInfo) : Option Documentation :=
  let parts : List String :=
    (if func.syntaxStr = "" then [] else ["**Syntax:** `" ++ func.syntaxStr ++ "`"]) ++
    (if func.description = "" then [] else [trimStr func.description]) ++
    (if func.arguments = "" then [] else ["**Arguments:**\n" ++ trimStr func.arguments]) ++
    (if func.returned_value = "" then [] else ["**Returns:**\n" ++ trimStr func.returned_value]) ++
    (if func.categories = "" then [] else ["**Category:** " ++ func.categories])
  if parts.isEmpty then none
  else some { kind := "markdown", value := joinStr "\n\n" parts }

/-- `build_function_completion` (lib.rs 176–232). -/
def build_function_completion (func : FunctionInfo) (all_functions : List FunctionInfo) :
    CompletionItem :=
  let kind := if func.is_aggregate then CompletionItemKind.AggregateFunction
    else CompletionItemKind.Function
  let detail := match func.alias_to with
    | some aliasTo => some ("(alias for " ++ aliasTo ++ ")")
    | none =>
      if func.is_aggregate then some "(aggregate function)" else some "(function)"
  let sort_text := if func.alias_to.isSome then SORT_PRIORITY_ALIAS ++ func.name
    else SORT_PRIORITY_FUNCTION ++ func.name
  let documentation := match func.alias_to with
    | some alias_to =>
      let target := all_functions.find? fun f => eqIgnoreAsciiCase f.name alias_to
      let parts := ["**" ++ func.name ++ "** _(alias for `" ++ alias_to ++ "`)_"] ++
        (match target with
         | some target_func =>
           match build_function_documentation target_func with
           | some target_doc => [target_doc.value]
           | none => []
         | none => [])
      some { kind := "markdown", value := joinStr "\n\n" parts }
    | none => build_function_documentation func
  { label := func.name, kind := kind, detail := detail,
    documentation := documentation, has_params := true, sort_text := some sort_text }

/-- `build_keyword_completion` (lib.rs 263–272). -/
def build_keyword_completion (keyword : String) : CompletionItem :=
  { label := keyword, kind := CompletionItemKind.Keyword,
    detail := some "(keyword)", documentation := none, has_params := false,
    sort_text := some (SORT_PRIORITY_KEYWORD ++ keyword) }

/-- `build_data_type_completion` (lib.rs 274–295). -/
def build_data_type_completion (dt : DataTypeInfo) : CompletionItem :=
  let pair := match dt.alias_to with
    | some aliasTo => (some ("(alias for " ++ aliasTo ++ ")"), SORT_PRIORITY_ALIAS ++ dt.name)
    | none => (some "(data type)", SORT_PRIORITY_DATA_TYPE ++ dt.name)
  { label := dt.name, kind := CompletionItemKind.DataType, detail := pair.1,
    documentation := none, has_params := false, sort_text := some pair.2 }

/-- `build_table_engine_completion` (lib.rs 297–306). -/
def build_table_engine_completion (engine : TableEngineInfo) : CompletionItem :=
  { label := engine.name, kind := CompletionItemKind.TableEngine,
    detail := some "(table engine)", documentation := none, has_params := false,
    sort_text := some (SORT_PRIORITY_TABLE_ENGINE ++ engine.name) }

/-- `build_format_completion` (lib.rs 308–324). -/
def build_format_completion (format : FormatInfo) : CompletionItem :=
  let detail := match format.is_input, format.is_output with
    | true, true => "(format: input/output)"
    | true, false => "(format: input only)"
    | false, true => "(format: output only)"
    | false, false => "(format)"
  { label := format.name, kind := CompletionItemKind.Format,
    detail := some detail, documentation := none, has_params := false,
    sort_text := some (SORT_PRIORITY_FORMAT ++ format.name) }

/-- `build_table_function_completion` (lib.rs 326–344). -/
def build_table_function_completion (tf : TableFunctionInfo) : CompletionItem :=
  let documentation := if tf.description = "" then none
    else some { kind := "markdown", value := trimStr tf.description : Documentation }
  { label := tf.name, kind := CompletionItemKind.TableFunction,
    detail := some "(table function)", documentation := documentation,
    has_params := true, sort_text := some (SORT_PRIORITY_TABLE_FUNCTION ++ tf.name) }

/-- `build_setting_completion` (lib.rs 346–370). -/
def build_setting_completion (setting : SettingInfo) (is_merge_tree : Bool) :
    CompletionItem :=
  let detail := if is_merge_tree then "(MergeTree setting: " ++ setting.setting_type ++ ")"
    else "(setting: " ++ setting.setting_type ++ ")"
  let documentation := if setting.description = "" then none
    else some { kind := "markdown", value := trimStr setting.description : Documentation }
  { label := setting.name, kind := CompletionItemKind.Setting,
    detail := some detail, documentation := documentation, has_params := false,
    sort_text := some (SORT_PRIORITY_SETTING ++ setting.name) }

/-- The synthesized logical-operator labels (lib.rs 430–439). -/
def logical_ops : List String :=
  ["AND", "OR", "NOT", "IN", "BETWEEN", "LIKE", "IS NULL", "IS NOT NULL"]

/-- The synthesized ORDER-BY keyword labels (lib.rs 445). -/
def order_keywords : List String := ["ASC", "DESC", "NULLS FIRST", "NULLS LAST"]

/-- The completion cache (lib.rs 149–162). -/
structure CompletionCache where
  all : List CompletionItem
  functions : List CompletionItem
  keywords : List CompletionItem
  data_types : List CompletionItem
  table_engines : List CompletionItem
  formats : List CompletionItem
  table_functions : List CompletionItem
  settings : List CompletionItem
  logical_operators : List CompletionItem
  order_by_keywords : List CompletionItem
deriving DecidableEq, Repr

/-- `build_completion_cache` (lib.rs 372–451).  The Rust loops push each item
both to its category list and to `all`, so `all` is the concatenation of the
category lists in build order. -/
def build_completion_cache (data : ClickHouseData) : CompletionCache :=
  let functions := data.functions.map fun f => build_function_completion f data.functions
  let keywords := data.keywords.map build_keyword_completion
  let data_types := data.data_types.map build_data_type_completion
  let table_engines := data.table_engines.map build_table_engine_completion
  let formats := data.formats.map build_format_completion
  let table_functions := data.table_functions.map build_table_function_completion
  let settings := (data.settings.map fun s => build_setting_completion s false) ++
    (data.merge_tree_settings.map fun s => build_setting_completion s true)
  { all := functions ++ keywords ++ data_types ++ table_engines ++ formats ++
      table_functions ++ settings,
    functions := functions, keywords := keywords, data_types := data_types,
    table_engines := table_engines, formats := formats,
    table_functions := table_functions, settings := settings,
    logical_operators := logical_ops.map build_keyword_completion,
    order_by_keywords := order_keywords.map build_keyword_completion }

/-! ## Tokens and context detection (lib.rs 453–636) -/

/-- The tokens of the external `sqlparser` tokenizer, collapsed to what
`detect_context` inspects: word value (for `is_keyword_token`), `=`, the two
parentheses, whitespace, and everything else. -/
inductive Token where
  | Word (value : String)
  | Eq
  | LParen
  | RParen
  | Whitespace
  | Other
deriving DecidableEq, Repr

/-- `matches!(t, Token::Whitespace(_))` (lib.rs 492). -/
def Token.isWs : Token → Bool
  | .Whitespace => true
  | _ => false

/-- `is_keyword_token` (lib.rs 628–630). -/
def is_keyword_token (t : Token) (keyword : String) : Bool :=
  match t with
  | .Word w => eqIgnoreAsciiCase w keyword
  | _ => false

/-- `has_clause_after` (lib.rs 632–636). -/
def has_clause_after (tokens : List Token) (keywords : List String) : Bool :=
  tokens.any fun t => keywords.any fun kw => is_keyword_token t kw

/-- `SqlContext` (lib.rs 455–474). -/
inductive SqlContext where
  | Engine
  | Format
  | WhereClause
  | OrderByClause
  | SelectClause
  | FromClause
  | ColumnDefinition
  | Settings
  | Default
deriving DecidableEq, Repr

/-- The backward `CREATE … TABLE` search of `is_in_create_table_columns`
(lib.rs 596–609): scanning down from index `j`, `TABLE` records
`found_table`, and `CREATE` with `found_table` already set yields
`found_create` (the loop then breaks); the result is `found_create`. -/
def createTableScan (tokens : List Token) : Nat → Bool → Bool
  | 0, found_table =>
    match tokens.get? 0 with
    | some t =>
      if is_keyword_token t "TABLE" then false
      else is_keyword_token t "CREATE" && found_table
    | none => false
  | j + 1, found_table =>
    match tokens.get? (j + 1) with
    | some t =>
      if is_keyword_token t "TABLE" then createTableScan tokens j true
      else if is_keyword_token t "CREATE" && found_table then true
      else createTableScan tokens j found_table
    | none => createTableScan tokens j found_table

/-- The forward nesting-depth check of `is_in_create_table_columns`
(lib.rs 611–625): starting at depth 1 after the opening parenthesis, a
closing parenthesis that brings the depth to 0 means the parenthesis was
closed. -/
def parenStillOpen : List Token → Int → Bool
  | [], depth => decide (0 < depth)
  | t :: rest, depth =>
    match t with
    | .LParen => parenStillOpen rest (depth + 1)
    | .RParen => if depth - 1 = 0 then false else parenStillOpen rest (depth - 1)
    | _ => parenStillOpen rest depth

/-- `is_in_create_table_columns` (lib.rs 594–626). -/
def is_in_create_table_columns (tokens : List Token) (paren_index : Nat) : Bool :=
  (if paren_index = 0 then false else createTableScan tokens (paren_index - 1) false) &&
    parenStillOpen (tokens.drop (paren_index + 1)) 1

/-- The body of the backward loop of `detect_context` at index `i`
(lib.rs 537–588): the first of the WHERE/HAVING, ORDER/GROUP BY, FROM/JOIN,
SELECT and CREATE-TABLE-parenthesis rules that fires, `none` when none
does. -/
def clause_rule_at (sig : List Token) (i : Nat) : Option SqlContext :=
  match sig.get? i with
  | none => none
  | some token =>
    if (is_keyword_token token "WHERE" || is_keyword_token token "HAVING") &&
        !has_clause_after (sig.drop (i + 1))
          ["ORDER", "GROUP", "LIMIT", "FORMAT", "SETTINGS"] then
      some SqlContext.WhereClause
    else if is_keyword_token token "BY" && decide (0 < i) &&
        (match sig.get? (i - 1) with
         | some prev => is_keyword_token prev "ORDER" || is_keyword_token prev "GROUP"
         | none => false) &&
        !has_clause_after (sig.drop (i + 1))
          ["LIMIT", "FORMAT", "SETTINGS", "HAVING", "WHERE"] then
      some SqlContext.OrderByClause
    else if (is_keyword_token token "FROM" || is_keyword_token token "JOIN") &&
        !has_clause_after (sig.drop (i + 1))
          ["WHERE", "GROUP", "ORDER", "LIMIT", "FORMAT", "SETTINGS"] then
      some SqlContext.FromClause
    else if is_keyword_token token "SELECT" &&
        !has_clause_after (sig.drop (i + 1)) ["FROM"] then
      some SqlContext.SelectClause
    else if token == Token.LParen && decide (2 ≤ i) &&
        is_in_create_table_columns sig i then
      some SqlContext.ColumnDefinition
    else none

/-- The backward loop `for i in (0..len).rev()` of `detect_context`
(lib.rs 537–588), entered at index `i` and counting down to 0; `Default`
when no rule fires (lib.rs 590). -/
def scanDown (sig : List Token) : Nat → SqlContext
  | 0 =>
    match clause_rule_at sig 0 with
    | some c => c
    | none => SqlContext.Default
  | i + 1 =>
    match clause_rule_at sig (i + 1) with
    | some c => c
    | none => scanDown sig i

/-- Rules d (FORMAT, lib.rs 527–529), e (SETTINGS, lib.rs 532–534) and the
backward scan, i.e. `detect_context` after the three ENGINE checks. -/
def detect_tail (sig : List Token) : SqlContext :=
  if is_keyword_token (sig.getD (sig.length - 1) Token.Other) "FORMAT" then
    SqlContext.Format
  else if is_keyword_token (sig.getD (sig.length - 1) Token.Other) "SETTINGS" then
    SqlContext.Settings
  else scanDown sig (sig.length - 1)

/-- Rust's `&sql[i..]` on a character list: `none` models the panic on an
out-of-bounds start index (lib.rs 520). -/
def sliceFrom (sql : List Char) (i : Nat) : Option (List Char) :=
  if i ≤ sql.length then some (sql.drop i) else none

/-- `detect_context` (lib.rs 477–591), parametrized by the external
tokenizer (`none` = tokenizer failure).  The result is `none` exactly when
the Rust code panics (the unclamped `&sql[cursor_offset..]` of rule c,
lib.rs 520). -/
def detect_context (tokenize : List Char → Option (List Token))
    (sql : List Char) (cursor_offset : Nat) : Option SqlContext :=
  let sql_before_cursor := if cursor_offset ≤ sql.length then sql.take cursor_offset else sql
  match tokenize sql_before_cursor with
  | none => some SqlContext.Default
  | some tokens =>
    let sig := tokens.filter fun t => !t.isWs
    if sig.isEmpty then some SqlContext.Default
    else
      let len := sig.length
      if decide (2 ≤ len) && sig.getD (len - 1) Token.Other == Token.Eq &&
          is_keyword_token (sig.getD (len - 2) Token.Other) "ENGINE" then
        some SqlContext.Engine
      else if decide (3 ≤ len) && sig.getD (len - 2) Token.Other == Token.Eq &&
          is_keyword_token (sig.getD (len - 3) Token.Other) "ENGINE" then
        some SqlContext.Engine
      else if decide (1 ≤ len) && is_keyword_token (sig.getD (len - 1) Token.Other) "ENGINE" then
        match sliceFrom sql cursor_offset with
        | none => none
        | some remaining =>
          if (remaining.dropWhile isWsChar).head? == some '=' then some SqlContext.Engine
          else some (detect_tail sig)
      else some (detect_tail sig)

/-- Word-constituent characters for the model tokenizer. -/
def isWordChar (c : Char) : Bool := c.isAlpha || c.isDigit || c == '_'

/-- Modelled from the spec: the external tokenizer (§1's opaque capability
`tokenize(text) -> sequence<Token> | TokenizeError`), whose implementation
is outside this repository.  On the ASCII SQL fragments of the scenario
claims it produces words, `=`, parentheses, whitespace and opaque symbol
tokens exactly as `sqlparser` does at the granularity `detect_context`
inspects. -/
def tokenizeChars : Nat → List Char → List Token
  | 0, _ => []
  | _, [] => []
  | fuel + 1, c :: rest =>
    if c == '=' then Token.Eq :: tokenizeChars fuel rest
    else if c == '(' then Token.LParen :: tokenizeChars fuel rest
    else if c == ')' then Token.RParen :: tokenizeChars fuel rest
    else if c.isWhitespace then Token.Whitespace :: tokenizeChars fuel rest
    else if c.isDigit then Token.Other :: tokenizeChars fuel (rest.dropWhile Char.isDigit)
    else if isWordChar c then
      Token.Word (String.mk (c :: rest.takeWhile isWordChar)) ::
        tokenizeChars fuel (rest.dropWhile isWordChar)
    else Token.Other :: tokenizeChars fuel rest

/-- The model tokenizer as `detect_context` receives it (it never fails on
the inputs considered here).  Every token consumes at least one character,
so `cs.length` steps of fuel always complete the scan. -/
def modelTokenize (cs : List Char) : Option (List Token) :=
  some (tokenizeChars cs.length cs)

/-! ## Entry points (lib.rs 638–802) -/

structure InitResult where
  success : Bool
  error : Option String
deriving DecidableEq, Repr

/-- `init_completion_data` (lib.rs 647–671).  JSON decoding of the payload
is external; its outcome is the `decoded` argument.  The `OnceLock` cell
`COMPLETION_CACHE` (lib.rs 164) is the explicit `state` argument, and the
pair returned is (result, state afterwards): `OnceLock::set` on an already
filled cell fails and keeps the old contents. -/
def init_completion_data (decoded : Except String ClickHouseData)
    (state : Option CompletionCache) : InitResult × Option CompletionCache :=
  match decoded with
  | .ok data =>
    let cache := build_completion_cache data
    match state with
    | none => ({ success := true, error := none }, some cache)
    | some old =>
      ({ success := false, error := some "Completion data already initialized" }, some old)
  | .error e =>
    ({ success := false, error := some ("Failed to parse ClickHouse data: " ++ e) }, state)

/-- The context→list mapping of `get_completions` (lib.rs 683–707). -/
def dispatch (context : SqlContext) (cache : CompletionCache) : List CompletionItem :=
  match context with
  | .Engine => cache.table_engines
  | .Format => cache.formats
  | .WhereClause => cache.functions ++ cache.logical_operators
  | .OrderByClause => cache.functions ++ cache.order_by_keywords
  | .SelectClause => cache.functions
  | .FromClause => cache.table_functions
  | .ColumnDefinition => cache.data_types
  | .Settings => cache.settings
  | .Default => cache.all

/-- `get_completions` (lib.rs 676–710): `[]` when the cache is not yet
built, otherwise context detection then dispatch.  `none` models the panic
propagated out of `detect_context`. -/
def get_completions (tokenize : List Char → Option (List Token))
    (state : Option CompletionCache) (sql : List Char) (cursor_offset : Nat) :
    Option (List CompletionItem) :=
  match state with
  | none => some []
  | some cache =>
    match detect_context tokenize sql cursor_offset with
    | none => none
    | some context => some (dispatch context cache)

/-! ## Validation and formatting facade (lib.rs 714–802) -/

structure ValidationError where
  message : List Char
  line : Option Nat
  column : Option Nat
deriving DecidableEq, Repr

structure ValidationResult where
  valid : Bool
  error : Option ValidationError
deriving DecidableEq, Repr

structure FormatResult where
  success : Bool
  formatted : Option (List Char)
  error : Option (List Char)
deriving DecidableEq, Repr

/-- `parse_error_position` (lib.rs 783–802): the line number is the slice
from just after the first `"Line: "` up to the next comma (or the end of
the message), trimmed and parsed; the column number is the slice from just
after the first `"Column: "` up to the next non-numeric character (or the
end), trimmed and parsed. -/
def parse_error_position (message : List Char) : Option Nat × Option Nat :=
  let line := match findSub message ("Line: ".data) with
    | none => none
    | some i =>
      let start := i + 6
      let stop := match findIdxOpt (fun c => c == ',') (message.drop start) with
        | some j => start + j
        | none => message.length
      parseU32 (trimChars ((message.take stop).drop start))
  let column := match findSub message ("Column: ".data) with
    | none => none
    | some i =>
      let start := i + 8
      let stop := match findIdxOpt (fun c => !isNumericChar c) (message.drop start) with
        | some j => start + j
        | none => message.length
      parseU32 (trimChars ((message.take stop).drop start))
  (line, column)

/-- `validate_sql` (lib.rs 714–743), parametrized by the external parser's
outcome on the input text (`Except.error` carries the parser's rendered
message). -/
def validate_sql (parseResult : Except (List Char) Unit) : ValidationResult :=
  match parseResult with
  | .ok _ => { valid := true, error := none }
  | .error e =>
    { valid := false,
      error := some { message := e, line := (parse_error_position e).1,
                      column := (parse_error_position e).2 } }

/-- `format_sql` (lib.rs 747–781), parametrized by the external parser's
outcome; a parsed statement is represented by its `{:#}` pretty-printed
text, the pretty-printer being external. -/
def format_sql (parseResult : Except (List Char) (List (List Char))) : FormatResult :=
  match parseResult with
  | .ok statements =>
    if statements.isEmpty then
      { success := false, formatted := none, error := some ("No SQL statements found".data) }
    else
      { success := true,
        formatted := some (joinChars (';' :: '\n' :: []) statements), error := none }
  | .error e => { success := false, formatted := none, error := some e }

/-! ## Helper lemmas -/

/-- A keyword-band sort key lexicographically precedes a setting-band sort
key: the bands start with `'0'` and `'6'`. -/
theorem sort_band_keyword_lt_setting (k s : String) : ("0_" ++ k) < ("6_" ++ s) := by
  rw [String.lt_iff_toList_lt]
  show ("0_" ++ k).data < ("6_" ++ s).data
  rw [String.data_append, String.data_append]
  show List.Lex (· < ·) ('0' :: '_' :: k.data) ('6' :: '_' :: s.data)
  exact List.Lex.rel (by decide)

/-! ## C2, C3, C8, C9 -/

/-- C2: the completion cache is write-once.  The first successful build
installs the cache; with a cache already installed, any further call,
whatever its payload, reports failure and leaves the state untouched — a
decoded payload is rejected with the already-initialized message — so
`get_completions` observes exactly the lists of the first build. -/
theorem completion_cache_write_once :
    (∀ d : ClickHouseData,
      init_completion_data (Except.ok d) none =
        ({ success := true, error := none }, some (build_completion_cache d))) ∧
    (∀ (c : CompletionCache) (d' : ClickHouseData),
      init_completion_data (Except.ok d') (some c) =
        ({ success := false, error := some "Completion data already initialized" }, some c)) ∧
    (∀ (c : CompletionCache) (p : Except String ClickHouseData),
      (init_completion_data p (some c)).1.success = false ∧
      (init_completion_data p (some c)).2 = some c) ∧
    (∀ (c : CompletionCache) (p : Except String ClickHouseData)
        (tokenize : List Char → Option (List Token)) (sql : List Char) (off : Nat),
      get_completions tokenize (init_completion_data p (some c)).2 sql off =
        get_completions tokenize (some c) sql off) := by
  refine ⟨fun d => rfl, fun c d' => rfl, fun c p => ?_, fun c p tokenize sql off => ?_⟩
  · cases p <;> exact ⟨rfl, rfl⟩
  · cases p <;> rfl

/-- C3: the completion dispatcher is exactly the fixed context→list table,
with the functions list first in the two concatenations; `get_completions`
dispatches the detected context against the cache, and with no cache built
it returns the empty list. -/
theorem dispatch_fixed_table :
    (∀ cache : CompletionCache,
      dispatch SqlContext.Engine cache = cache.table_engines ∧
      dispatch SqlContext.Format cache = cache.formats ∧
      dispatch SqlContext.WhereClause cache = cache.functions ++ cache.logical_operators ∧
      dispatch SqlContext.OrderByClause cache = cache.functions ++ cache.order_by_keywords ∧
      dispatch SqlContext.SelectClause cache = cache.functions ∧
      dispatch SqlContext.FromClause cache = cache.table_functions ∧
      dispatch SqlContext.ColumnDefinition cache = cache.data_types ∧
      dispatch SqlContext.Settings cache = cache.settings ∧
      dispatch SqlContext.Default cache = cache.all) ∧
    (∀ (tokenize : List Char → Option (List Token)) (cache : CompletionCache)
        (sql : List Char) (off : Nat) (context : SqlContext),
      detect_context tokenize sql off = some context →
      get_completions tokenize (some cache) sql off = some (dispatch context cache)) ∧
    (∀ (tokenize : List Char → Option (List Token)) (sql : List Char) (off : Nat),
      get_completions tokenize none sql off = some []) := by
  refine ⟨fun cache => ⟨rfl, rfl, rfl, rfl, rfl, rfl, rfl, rfl, rfl⟩,
    fun tokenize cache sql off context h => ?_, fun tokenize sql off => rfl⟩
  simp [get_completions, h]

/-- C8: `format_sql` reports the parser's error on parse failure, treats
zero parsed statements as the "No SQL statements found" error, and joins
one or more rendered statements with `";"` plus a newline; success holds
exactly when no error is reported. -/
theorem format_sql_cases :
    (∀ e, format_sql (Except.error e) =
      { success := false, formatted := none, error := some e }) ∧
    (format_sql (Except.ok []) =
      { success := false, formatted := none,
        error := some ("No SQL statements found".data) }) ∧
    (∀ s ss, format_sql (Except.ok (s :: ss)) =
      { success := true, formatted := some (joinChars (';' :: '\n' :: []) (s :: ss)),
        error := none }) ∧
    (∀ pr, (format_sql pr).success = true ↔ (format_sql pr).error = none) := by
  refine ⟨fun e => rfl, rfl, fun s ss => rfl, fun pr => ?_⟩
  cases pr with
  | ok l => cases l <;> simp [format_sql]
  | error e => simp [format_sql]

/-- C9: a payload that fails to decode leaves the cache state untouched (in
particular uninitialized when nothing was built yet), and a later call with
a decodable payload still succeeds and installs its cache. -/
theorem init_decode_failure_keeps_slot :
    (∀ (e : String) (st : Option CompletionCache),
      init_completion_data (Except.error e) st =
        ({ success := false,
           error := some ("Failed to parse ClickHouse data: " ++ e) }, st)) ∧
    (∀ (e : String) (d : ClickHouseData),
      init_completion_data (Except.ok d) (init_completion_data (Except.error e) none).2 =
        ({ success := true, error := none }, some (build_completion_cache d))) :=
  ⟨fun _ _ => rfl, fun _ _ => rfl⟩

/-! ## C7, C10 -/

/-- Every completion item the cache builder produces: the `all` list (which
holds every category item) together with the two synthesized lists. -/
def built_items (cache : CompletionCache) : List CompletionItem :=
  cache.all ++ cache.logical_operators ++ cache.order_by_keywords

/-- A built item of kind `Keyword` has a sort key in band `"0_"`. -/
theorem mem_built_keyword_shape (data : ClickHouseData) (item : CompletionItem)
    (h : item ∈ built_items (build_completion_cache data))
    (hk : item.kind = CompletionItemKind.Keyword) :
    ∃ k, item.sort_text = some ("0_" ++ k) := by
  simp only [built_items, build_completion_cache, List.mem_append, List.mem_map] at h
  rcases h with (((((((⟨f, hf, rfl⟩ | ⟨kw, hkw, rfl⟩) | ⟨dt, hdt, rfl⟩) | ⟨en, hen, rfl⟩) |
    ⟨fo, hfo, rfl⟩) | ⟨tfi, htf, rfl⟩) | (⟨st, hst, rfl⟩ | ⟨st, hst, rfl⟩)) |
    ⟨kw, hkw, rfl⟩) | ⟨kw, hkw, rfl⟩
  · simp only [build_function_completion] at hk
    split at hk <;> simp at hk
  · exact ⟨kw, rfl⟩
  · simp [build_data_type_completion] at hk
  · simp [build_table_engine_completion] at hk
  · simp [build_format_completion] at hk
  · simp [build_table_function_completion] at hk
  · simp [build_setting_completion] at hk
  · simp [build_setting_completion] at hk
  · exact ⟨kw, rfl⟩
  · exact ⟨kw, rfl⟩

/-- A built item of kind `Setting` has a sort key in band `"6_"`. -/
theorem mem_built_setting_shape (data : ClickHouseData) (item : CompletionItem)
    (h : item ∈ built_items (build_completion_cache data))
    (hk : item.kind = CompletionItemKind.Setting) :
    ∃ s, item.sort_text = some ("6_" ++ s) := by
  simp only [built_items, build_completion_cache, List.mem_append, List.mem_map] at h
  rcases h with (((((((⟨f, hf, rfl⟩ | ⟨kw, hkw, rfl⟩) | ⟨dt, hdt, rfl⟩) | ⟨en, hen, rfl⟩) |
    ⟨fo, hfo, rfl⟩) | ⟨tfi, htf, rfl⟩) | (⟨st, hst, rfl⟩ | ⟨st, hst, rfl⟩)) |
    ⟨kw, hkw, rfl⟩) | ⟨kw, hkw, rfl⟩
  · simp only [build_function_completion] at hk
    split at hk <;> simp at hk
  · simp [build_keyword_completion] at hk
  · simp [build_data_type_completion] at hk
  · simp [build_table_engine_completion] at hk
  · simp [build_format_completion] at hk
  · simp [build_table_function_completion] at hk
  · exact ⟨st.name, rfl⟩
  · exact ⟨st.name, rfl⟩
  · simp [build_keyword_completion] at hk
  · simp [build_keyword_completion] at hk

/-- C7: of any two items produced by the cache builder, a `Keyword` item's
sort key (band `"0_"` then the name) lexicographically precedes a `Setting`
item's sort key (band `"6_"` then the name). -/
theorem keyword_sort_precedes_setting (data : ClickHouseData) (i j : CompletionItem)
    (hi : i ∈ built_items (build_completion_cache data))
    (hj : j ∈ built_items (build_completion_cache data))
    (hik : i.kind = CompletionItemKind.Keyword)
    (hjk : j.kind = CompletionItemKind.Setting) :
    ∃ a b, i.sort_text = some a ∧ j.sort_text = some b ∧ a < b := by
  obtain ⟨k, hk⟩ := mem_built_keyword_shape data i hi hik
  obtain ⟨s, hs⟩ := mem_built_setting_shape data j hj hjk
  exact ⟨_, _, hk, hs, sort_band_keyword_lt_setting k s⟩

/-- Witness for C7 at a one-keyword, one-setting catalog. -/
theorem keyword_sort_precedes_setting_witness :
    ∃ a b, (build_keyword_completion "K").sort_text = some a ∧
      (build_setting_completion ⟨"max_threads", "UInt64", ""⟩ false).sort_text = some b ∧
      a < b :=
  keyword_sort_precedes_setting
    ⟨[], ["K"], [], [], [], [], [], [⟨"max_threads", "UInt64", ""⟩], []⟩ _ _
    (by decide) (by decide) rfl rfl

/-- C10: every item of the synthesized logical-operator and ORDER-BY
modifier lists is built exactly as a keyword completion: kind `Keyword`,
detail `"(keyword)"`, no documentation, `has_params = false`, sort key
`"0_"` followed by the literal text, the label being one of the twelve
synthesized literals. -/
theorem synthetic_lists_are_keyword_completions (data : ClickHouseData)
    (item : CompletionItem)
    (h : item ∈ (build_completion_cache data).logical_operators ++
      (build_completion_cache data).order_by_keywords) :
    item.kind = CompletionItemKind.Keyword ∧
    item.detail = some "(keyword)" ∧
    item.documentation = none ∧
    item.has_params = false ∧
    item.sort_text = some ("0_" ++ item.label) ∧
    item.label ∈ logical_ops ++ order_keywords ∧
    item = build_keyword_completion item.label := by
  simp only [build_completion_cache, List.mem_append, List.mem_map] at h
  rcases h with ⟨kw, hkw, rfl⟩ | ⟨kw, hkw, rfl⟩
  · exact ⟨rfl, rfl, rfl, rfl, rfl, List.mem_append.mpr (Or.inl hkw), rfl⟩
  · exact ⟨rfl, rfl, rfl, rfl, rfl, List.mem_append.mpr (Or.inr hkw), rfl⟩

/-- Witness for C10 at the `"AND"` operator of an empty catalog. -/
theorem synthetic_lists_are_keyword_completions_witness :
    (build_keyword_completion "AND").kind = CompletionItemKind.Keyword ∧
    (build_keyword_completion "AND").detail = some "(keyword)" ∧
    (build_keyword_completion "AND").documentation = none ∧
    (build_keyword_completion "AND").has_params = false ∧
    (build_keyword_completion "AND").sort_text =
      some ("0_" ++ (build_keyword_completion "AND").label) ∧
    (build_keyword_completion "AND").label ∈ logical_ops ++ order_keywords ∧
    build_keyword_completion "AND" =
      build_keyword_completion (build_keyword_completion "AND").label :=
  synthetic_lists_are_keyword_completions ⟨[], [], [], [], [], [], [], [], []⟩
    (build_keyword_completion "AND") (by decide)

/-! ## C4 -/

/-- The alias documentation header contains the literal text `alias for`,
wherever the documentation continues. -/
theorem alias_header_hasSubstr (name target : String) (post : List Char) :
    HasSubstr ("alias for".data)
      (("**" ++ name ++ "** _(alias for `" ++ target ++ "`)_").data ++ post) := by
  refine ⟨("**" ++ name ++ "** _(").data, (" `" ++ target ++ "`)_").data ++ post, ?_⟩
  simp [String.data_append]

/-- C4: a function record with `alias_to = some target` yields an item whose
kind follows the record's own aggregate flag, whose detail is
`"(alias for target)"`, whose sort key is in band `"9_"`, and whose markdown
documentation starts with the header `**name** _(alias for `target`)_` and
contains the literal substring `"alias for"`; the documentation of the first
function found under a case-insensitive name lookup of the target is
appended after a blank line when it exists, and nothing is appended when the
target is not found or has no documentation. -/
theorem alias_completion_shape (func : FunctionInfo) (fs : List FunctionInfo)
    (target : String) (halias : func.alias_to = some target) :
    (build_function_completion func fs).kind =
      (if func.is_aggregate then CompletionItemKind.AggregateFunction
       else CompletionItemKind.Function) ∧
    (build_function_completion func fs).detail = some ("(alias for " ++ target ++ ")") ∧
    (build_function_completion func fs).sort_text = some ("9_" ++ func.name) ∧
    ∃ doc, (build_function_completion func fs).documentation = some doc ∧
      doc.kind = "markdown" ∧
      HasSubstr ("alias for".data) doc.value.data ∧
      (∀ tf, fs.find? (fun f => eqIgnoreAsciiCase f.name target) = some tf →
        (∀ td, build_function_documentation tf = some td →
          doc.value = "**" ++ func.name ++ "** _(alias for `" ++ target ++ "`)_" ++
            "\n\n" ++ td.value) ∧
        (build_function_documentation tf = none →
          doc.value = "**" ++ func.name ++ "** _(alias for `" ++ target ++ "`)_")) ∧
      (fs.find? (fun f => eqIgnoreAsciiCase f.name target) = none →
        doc.value = "**" ++ func.name ++ "** _(alias for `" ++ target ++ "`)_") := by
  refine ⟨rfl, ?_, ?_, ?_⟩
  · simp [build_function_completion, halias]
  · simp [build_function_completion, halias, SORT_PRIORITY_ALIAS]
  · cases hfind : fs.find? (fun f => eqIgnoreAsciiCase f.name target) with
    | none =>
      refine ⟨⟨"markdown", "**" ++ func.name ++ "** _(alias for `" ++ target ++ "`)_"⟩,
        ?_, rfl, ?_, ?_, fun _ => rfl⟩
      · simp [build_function_completion, halias, hfind, joinStr]
      · simpa using alias_header_hasSubstr func.name target []
      · intro tf htf
        exact absurd htf (by simp)
    | some tf =>
      cases hdoc : build_function_documentation tf with
      | none =>
        refine ⟨⟨"markdown", "**" ++ func.name ++ "** _(alias for `" ++ target ++ "`)_"⟩,
          ?_, rfl, ?_, ?_, ?_⟩
        · simp [build_function_completion, halias, hfind, hdoc, joinStr]
        · simpa using alias_header_hasSubstr func.name target []
        · intro tf' htf'
          obtain rfl : tf = tf' := Option.some.inj htf'
          exact ⟨fun td htd => absurd (hdoc.symm.trans htd) (by simp), fun _ => rfl⟩
        · intro hnone
          exact absurd hnone (by simp)
      | some td =>
        refine ⟨⟨"markdown", "**" ++ func.name ++ "** _(alias for `" ++ target ++ "`)_" ++
          "\n\n" ++ td.value⟩, ?_, rfl, ?_, ?_, ?_⟩
        · simp [build_function_completion, halias, hfind, hdoc, joinStr]
        · have := alias_header_hasSubstr func.name target (("\n\n" ++ td.value).data)
          simpa [String.data_append, List.append_assoc] using this
        · intro tf' htf'
          obtain rfl : tf = tf' := Option.some.inj htf'
          refine ⟨fun td' htd' => ?_, fun hnone => absurd (hdoc.symm.trans hnone) (by simp)⟩
          obtain rfl : td = td' := Option.some.inj (hdoc.symm.trans htd')
          rfl
        · intro hnone
          exact absurd hnone (by simp)

/-- Witness for C4: the alias `f → g`, with the target `g` present and
documented, gets a band-`"9_"` sort key and the alias detail. -/
theorem alias_completion_shape_witness :
    (build_function_completion ⟨"f", false, some "g", "", "", "", "", ""⟩
        [⟨"g", true, none, "", "the docs of g", "", "", ""⟩]).detail =
      some ("(alias for " ++ "g" ++ ")") ∧
    (build_function_completion ⟨"f", false, some "g", "", "", "", "", ""⟩
        [⟨"g", true, none, "", "the docs of g", "", "", ""⟩]).sort_text =
      some ("9_" ++ "f") :=
  ⟨(alias_completion_shape ⟨"f", false, some "g", "", "", "", "", ""⟩
      [⟨"g", true, none, "", "the docs of g", "", "", ""⟩] "g" rfl).2.1,
   (alias_completion_shape ⟨"f", false, some "g", "", "", "", "", ""⟩
      [⟨"g", true, none, "", "the docs of g", "", "", ""⟩] "g" rfl).2.2.1⟩

/-! ## C6 -/

/-- `has_clause_after` is false exactly when no listed keyword occurs in the
token slice. -/
theorem has_clause_after_eq_false (tokens : List Token) (kws : List String) :
    has_clause_after tokens kws = false ↔
      ∀ t ∈ tokens, ∀ kw ∈ kws, is_keyword_token t kw = false := by
  simp [has_clause_after, List.any_eq_false]

/-- C6: in the backward scan, a `WHERE` or `HAVING` token yields
`WhereClause` exactly when none of `ORDER`, `GROUP`, `LIMIT`, `FORMAT`,
`SETTINGS` occurs strictly after it; the three scenario texts all detect as
`WhereClause` (so the third does not regress to `SelectClause`). -/
theorem where_having_rule :
    (∀ (sig : List Token) (i : Nat) (t : Token),
      sig.get? i = some t →
      (is_keyword_token t "WHERE" = true ∨ is_keyword_token t "HAVING" = true) →
      (clause_rule_at sig i = some SqlContext.WhereClause ↔
        ∀ u ∈ sig.drop (i + 1),
          is_keyword_token u "ORDER" = false ∧ is_keyword_token u "GROUP" = false ∧
          is_keyword_token u "LIMIT" = false ∧ is_keyword_token u "FORMAT" = false ∧
          is_keyword_token u "SETTINGS" = false)) ∧
    detect_context modelTokenize ("SELECT * FROM t WHERE ".data) 22 =
      some SqlContext.WhereClause ∧
    detect_context modelTokenize ("SELECT * FROM t GROUP BY x HAVING ".data) 34 =
      some SqlContext.WhereClause ∧
    detect_context modelTokenize ("SELECT * FROM t WHERE x = 1 AND ".data) 32 =
      some SqlContext.WhereClause := by
  refine ⟨?_, by decide, by decide, by decide⟩
  intro sig i t hget hkw
  have h1 : (is_keyword_token t "WHERE" || is_keyword_token t "HAVING") = true := by
    rcases hkw with h | h <;> simp [h]
  unfold clause_rule_at
  rw [hget]
  cases h2 : has_clause_after (sig.drop (i + 1))
      ["ORDER", "GROUP", "LIMIT", "FORMAT", "SETTINGS"] with
  | false =>
    simp only [h1, h2, Bool.not_false, Bool.and_true, if_true]
    constructor
    · intro _ u hu
      have hall := (has_clause_after_eq_false _ _).mp h2 u hu
      exact ⟨hall "ORDER" (by simp), hall "GROUP" (by simp), hall "LIMIT" (by simp),
        hall "FORMAT" (by simp), hall "SETTINGS" (by simp)⟩
    · intro _
      simp
  | true =>
    simp only [h1, h2, Bool.not_true, Bool.and_false]
    apply iff_of_false
    · simp only [Bool.false_eq_true, if_false]
      split
      · simp
      · split
        · simp
        · split
          · simp
          · split
            · simp
            · simp
    · intro hR
      obtain ⟨u, hu, hp⟩ := List.any_eq_true.mp h2
      obtain ⟨kw, hkwmem, htk⟩ := List.any_eq_true.mp hp
      have hall := hR u hu
      simp only [List.mem_cons, List.not_mem_nil, or_false] at hkwmem
      rcases hkwmem with rfl | rfl | rfl | rfl | rfl <;> simp [htk] at hall

/-- Witness for C6's scan rule at the one-token sequence `[WHERE]`. -/
theorem where_having_rule_witness :
    clause_rule_at [Token.Word "WHERE"] 0 = some SqlContext.WhereClause :=
  (where_having_rule.1 [Token.Word "WHERE"] 0 (Token.Word "WHERE") rfl
    (Or.inl (by decide))).mpr (by simp)

/-! ## C1 -/

/-- C1 (against the bug): at `("ENGINE", 10)` the code panics — the last
significant token is `ENGINE`, so rule c evaluates the unclamped
`&sql[cursor_offset..]` with `cursor_offset = 10 > 6` (`none` in the
embedding); at the clamped boundary `("ENGINE", 6)` it returns `Default`;
for every in-range offset `detect_context` always returns a context, and a
tokenizer failure on the (clamped) prefix degrades to `Default`. -/
theorem detect_context_engine_oob_panic :
    detect_context modelTokenize ("ENGINE".data) 10 = none ∧
    detect_context modelTokenize ("ENGINE".data) 6 = some SqlContext.Default ∧
    (∀ (tokenize : List Char → Option (List Token)) (sql : List Char) (off : Nat),
      off ≤ sql.length → (detect_context tokenize sql off).isSome = true) ∧
    (∀ (tokenize : List Char → Option (List Token)) (sql : List Char) (off : Nat),
      tokenize (if off ≤ sql.length then sql.take off else sql) = none →
      detect_context tokenize sql off = some SqlContext.Default) := by
  refine ⟨by decide, by decide, ?_, ?_⟩
  · intro tokenize sql off h
    have hslice : sliceFrom sql off = some (sql.drop off) := by simp [sliceFrom, h]
    unfold detect_context
    cases htok : tokenize (if off ≤ sql.length then sql.take off else sql) with
    | none => simp [htok]
    | some tokens =>
      simp only [htok]
      cases hsig : (tokens.filter fun t => !t.isWs).isEmpty with
      | true => simp [hsig]
      | false =>
        simp only [hsig, Bool.false_eq_true, if_false]
        split
        · simp
        · split
          · simp
          · split
            · rw [hslice]
              split
              · simp_all
              · split <;> simp
            · simp
  · intro tokenize sql off h
    unfold detect_context
    simp [h]

/-! ## C5 -/

/-- The extraction algorithm exactly as the specification words it: for both
fields, scan from just after the located marker to the next non-numeric
character and parse what was scanned. -/
def claimed_parse_error_position (message : List Char) : Option Nat × Option Nat :=
  ((findSub message ("Line: ".data)).bind fun i =>
      parseU32 ((message.drop (i + 6)).takeWhile isNumericChar),
   (findSub message ("Column: ".data)).bind fun i =>
      parseU32 ((message.drop (i + 8)).takeWhile isNumericChar))

/-- The amended extraction: the line slice runs from just after `"Line: "`
to the next comma (or the end of the message), the column slice from just
after `"Column: "` to the next non-numeric character (or the end); each
slice is trimmed and parsed as a `u32`. -/
def amended_parse_error_position (message : List Char) : Option Nat × Option Nat :=
  ((findSub message ("Line: ".data)).bind fun i =>
      parseU32 (trimChars ((message.drop (i + 6)).takeWhile fun c => !(c == ','))),
   (findSub message ("Column: ".data)).bind fun i =>
      parseU32 (trimChars ((message.drop (i + 8)).takeWhile isNumericChar)))

/-- When no character satisfies `p`, `takeWhile` of its negation is the
whole list. -/
theorem findIdxOpt_none_takeWhile (p : Char → Bool) (l : List Char)
    (h : findIdxOpt p l = none) : l.takeWhile (fun c => !p c) = l := by
  induction l with
  | nil => rfl
  | cons c t ih =>
    by_cases hc : p c
    · simp [findIdxOpt, hc] at h
    · simp only [findIdxOpt, hc, if_false, Bool.false_eq_true] at h
      cases hf : findIdxOpt p t with
      | none => simp [List.takeWhile_cons, hc, ih hf]
      | some j => rw [hf] at h; simp at h

/-- Taking up to the first index satisfying `p` is `takeWhile` of its
negation. -/
theorem findIdxOpt_some_take (p : Char → Bool) (l : List Char) (j : Nat)
    (h : findIdxOpt p l = some j) : l.take j = l.takeWhile fun c => !p c := by
  induction l generalizing j with
  | nil => simp [findIdxOpt] at h
  | cons c t ih =>
    by_cases hc : p c
    · simp only [findIdxOpt, hc, if_true] at h
      cases h
      simp [List.takeWhile_cons, hc]
    · simp only [findIdxOpt, hc, if_false, Bool.false_eq_true] at h
      cases hf : findIdxOpt p t with
      | none => rw [hf] at h; simp at h
      | some j' =>
        rw [hf] at h
        simp only [Option.map_some'] at h
        cases h
        simp [List.takeWhile_cons, hc, ih j' hf]

/-- The index-slicing form of `parse_error_position` equals the
`takeWhile` form of the amended description. -/
theorem parse_error_position_eq_amended (message : List Char) :
    parse_error_position message = amended_parse_error_position message := by
  simp only [parse_error_position, amended_parse_error_position]
  congr 1
  · cases hl : findSub message ("Line: ".data) with
    | none => rfl
    | some i =>
      simp only [Option.some_bind]
      cases hf : findIdxOpt (fun c => c == ',') (message.drop (i + 6)) with
      | none =>
        rw [List.take_length, findIdxOpt_none_takeWhile _ _ hf]
      | some j =>
        rw [← List.take_drop, findIdxOpt_some_take _ _ _ hf]
  · cases hcol : findSub message ("Column: ".data) with
    | none => rfl
    | some i =>
      simp only [Option.some_bind]
      cases hf : findIdxOpt (fun c => !isNumericChar c) (message.drop (i + 8)) with
      | none =>
        have ht := findIdxOpt_none_takeWhile _ _ hf
        simp only [Bool.not_not] at ht
        rw [List.take_length, ht]
      | some j =>
        have ht := findIdxOpt_some_take _ _ _ hf
        simp only [Bool.not_not] at ht
        rw [← List.take_drop, ht]

/-- C5 counterexample: on `"Line: 7; Column: 8"` the code yields no line
number (the line slice runs to the next comma, and there is none, so the
whole tail `"7; Column: 8"` fails to parse), while the extraction the claim
describes — scan to the next non-numeric character — would yield line 7. -/
theorem parse_error_position_counterexample :
    parse_error_position ("Line: 7; Column: 8".data) = (none, some 8) ∧
    claimed_parse_error_position ("Line: 7; Column: 8".data) = (some 7, some 8) :=
  ⟨by decide, by decide⟩

/-- C5 (amended): on parser failure `validate_sql` reports `valid = false`
with the parser's message and the scraped positions, where the line number
is scanned from after `"Line: "` to the next comma (or the end) and the
column number from after `"Column: "` to the next non-numeric character;
the canonical `sqlparser` message shape is scraped successfully. -/
theorem validate_sql_error_scrape :
    (∀ e, validate_sql (Except.error e) =
      { valid := false,
        error := some { message := e, line := (parse_error_position e).1,
                        column := (parse_error_position e).2 } }) ∧
    (∀ msg, parse_error_position msg = amended_parse_error_position msg) ∧
    parse_error_position
      ("sql parser error: Expected X, found Y at Line: 1, Column: 5".data) =
      (some 1, some 5) :=
  ⟨fun _ => rfl, parse_error_position_eq_amended, by decide⟩

end SqlValidator
